import Mathlib

/-
Verification development for the Perft-debugging scripts of this repository
(`src/perftdebug.py` and `src/perftdebugger.py`).

The two Python files share the same architecture: a Session Runner (`_run`)
that drives one engine subprocess through a line protocol and parses its
per-move node counts, a Position Comparator (the body of `_debug` after the
two `_run` calls) producing a `DebugResult`, and a Bisection Driver (`debug`)
that walks depths `D, D-1, ..., 1` accumulating a move path.

The embedding below translates those functions into pure Lean definitions:
  * engine replies are abstracted as a list of output lines / an oracle;
  * Python `dict` is an association list with insert-or-overwrite semantics;
  * Python `set` of keys is a `Finset String`;
  * the unhandled `ValueError` from `move, node_count = line.split(":")`
    becomes the `Except` error `PyError.valueError`;
  * the mutable `payload` attribute that `DebugResult.load` writes onto the
    shared enum member is modelled by explicit state passing (`EnumState`).
-/

namespace RPerft

/-! ## Module-level constants (both files, lines 8-11) -/

def ENGINE_PATH : String := "./target/debug/chess"

def STOCKFISH_PATH : String := "stockfish"

def STARTING_FEN : String := "rnbqkbnr/pppppppp/8/8/8/8/PPPPPPPP/RNBQKBNR w KQkq - 0 1"

/-! ## Character classes of the regular expressions

`perftdebug.py` line 96 uses `re.match("^[a-h][1-8]{2}", line)`:
one file letter followed by two rank digits.
`perftdebugger.py` line 88 uses `re.match("^[a-h]{1}[1-8]{1}", line)`:
one file letter followed by one rank digit.
`re.match` anchors at the start of the line only. -/

def isFileChar (c : Char) : Bool := decide ('a' ≤ c ∧ c ≤ 'h')

def isRankChar (c : Char) : Bool := decide ('1' ≤ c ∧ c ≤ '8')

/-- The pattern `^[a-h][1-8]{2}` of `perftdebug.py` line 96. -/
def matchMoveDebug (line : String) : Bool :=
  match line.toList with
  | c0 :: c1 :: c2 :: _ => isFileChar c0 && isRankChar c1 && isRankChar c2
  | _ => false

/-- The pattern `^[a-h]{1}[1-8]{1}` of `perftdebugger.py` line 88. -/
def matchMoveDebugger (line : String) : Bool :=
  match line.toList with
  | c0 :: c1 :: _ => isFileChar c0 && isRankChar c1
  | _ => false

/-! ## Python `str.split(sep)` for a one-character separator -/

/-- Number of occurrences of a character in a list of characters. -/
def countChar (c : Char) : List Char → Nat
  | [] => 0
  | c2 :: rest => (if c2 = c then 1 else 0) + countChar c rest

/-- Split on every occurrence of `sep`, keeping empty pieces, exactly like
Python `str.split(sep)` for a single-character separator. -/
def splitChar (sep : Char) : List Char → List (List Char)
  | [] => [[]]
  | c :: cs =>
    match splitChar sep cs with
    | [] => [[]]
    | r :: rs => if c = sep then [] :: r :: rs else (c :: r) :: rs

/-- `line.split(":")` of both `_run` parsers. -/
def splitColon (line : String) : List String :=
  (splitChar ':' line.toList).map fun cs => String.mk cs

/-! ## The Session Runner's parse loop

Both `_run` functions end with

    result = {}
    for line in response:
        if match(PATTERN, line):
            move, node_count = line.split(":")
            result[move] = node_count
    return result

Note that `node_count` is stored as the raw string piece after the colon
(including its leading space); the code never converts it with `int`, despite
the annotated return type `Dict[str, int]`.  The only exception this loop can
raise is the `ValueError` from unpacking `line.split(":")` into exactly two
names. -/

/-- The one runtime error the parse loop can raise: the `ValueError` from
`move, node_count = line.split(":")` when the split does not have exactly
two pieces. -/
inductive PyError where
  | valueError (line : String)
deriving DecidableEq

/-- An entry of the result dict: move string, raw count string. -/
abbrev Entry := String × String

/-- Python `result[move] = node_count`: overwrite in place if the key exists,
otherwise append (dict insertion order). -/
def dictInsert (d : List Entry) (k v : String) : List Entry :=
  if d.any fun p => p.1 == k then d.map fun p => if p.1 = k then (k, v) else p
  else d ++ [(k, v)]

/-- The parse loop of `_run`, parameterized by the regex test of the file. -/
def parseLines (matchFn : String → Bool) : List String → List Entry → Except PyError (List Entry)
  | [], acc => Except.ok acc
  | line :: rest, acc =>
    if matchFn line then
      match splitColon line with
      | [move, nodeCount] => parseLines matchFn rest (dictInsert acc move nodeCount)
      | _ => Except.error (PyError.valueError line)
    else parseLines matchFn rest acc

/-- Parse of a response, `perftdebug.py` lines 93-99
(`response` is the stdout already split into lines). -/
def parseResponseDebug (response : List String) : Except PyError (List Entry) :=
  parseLines matchMoveDebug response []

/-- Parse of a response, `perftdebugger.py` lines 85-91. -/
def parseResponseDebugger (response : List String) : Except PyError (List Entry) :=
  parseLines matchMoveDebugger response []

/-! ## The request scripts written by `_run` -/

/-- The string interpolated for `{moves}`: `" ".join(moves)` when a list was
passed, the text `None` when the default `None` reaches the f-string. -/
def movesRepr : Option (List String) → String
  | some ms => String.intercalate " " ms
  | none => "None"

/-- The position-setup line of `perftdebug.py` line 88 (same for every
engine path). -/
def positionCmdDebug (fen : String) (moves : Option (List String)) : String :=
  "position fen " ++ fen ++ " moves " ++ movesRepr moves ++ "\n"

/-- The full stdin script of `perftdebug.py` `_run` (lines 88-90). -/
def runScriptDebug (fen : String) (moves : Option (List String)) (depth : Nat) : List String :=
  [positionCmdDebug fen moves,
   "go perft " ++ toString depth ++ "\n",
   "quit\n"]

/-- The position-setup line of `perftdebugger.py` lines 77-80: the
`moves` keyword is sent only to `stockfish`; the engine under test receives
the bare move list (flagged in the source as a temporary workaround). -/
def positionCmdDebugger (engine : String) (fen : String) (moves : Option (List String)) : String :=
  if engine = "stockfish" then
    "position fen " ++ fen ++ " moves " ++ movesRepr moves ++ "\n"
  else
    "position fen " ++ fen ++ " " ++ movesRepr moves ++ "\n"

/-- The full stdin script of `perftdebugger.py` `_run` (lines 75-82); no
position line at all is written when `fen` is `None`. -/
def runScriptDebugger (engine : String) (fen : Option (String)) (moves : Option (List String))
    (depth : Nat) : List String :=
  (match fen with
   | some f => [positionCmdDebugger engine f moves]
   | none => []) ++
  ["go perft " ++ toString depth ++ "\n", "quit\n"]

/-- Executable-path resolution of `perftdebugger.py` lines 68-71. -/
def pathFor (engine : String) : String :=
  if engine = "stockfish" then STOCKFISH_PATH else ENGINE_PATH

/-- The observable request of one `_run` call: which executable is started
and the lines written to its stdin. -/
structure EngineQuery where
  path : String
  script : List String
deriving DecidableEq

/-- The two `_run` requests issued by `perftdebug.py` `_debug` lines 64-65
(tested engine first, then the reference). -/
def debugQueriesDebug (ref eng : String) (depth : Nat) (fen : String) (moves : List String) :
    EngineQuery × EngineQuery :=
  (⟨eng, runScriptDebug fen (some moves) depth⟩,
   ⟨ref, runScriptDebug fen (some moves) depth⟩)

/-- The two `_run` requests issued by `perftdebugger.py` `_debug` lines 47-48
(tested engine first, then the reference). -/
def debugQueriesDebugger (depth : Nat) (fen : String) (moves : List String) :
    EngineQuery × EngineQuery :=
  (⟨pathFor "engine", runScriptDebugger "engine" (some fen) (some moves) depth⟩,
   ⟨pathFor "stockfish", runScriptDebugger "stockfish" (some fen) (some moves) depth⟩)

/-! ## The Position Comparator (`_debug` lines 68-81 / 51-64)

The comparison consumes the two dicts returned by `_run`.  Key sets are
Python `set`s, modelled as `Finset String`; the count scan iterates the
tested engine's dict in its insertion order, modelled by recursion over the
association list. -/

/-- Python `d[k]`-style lookup (first matching key). -/
def dictLookup {α : Type} (k : String) : List (String × α) → Option α
  | [] => none
  | (k2, v) :: rest => if k2 = k then some v else dictLookup k rest

/-- Python `set(d.keys())`. -/
def keysOf {α : Type} (d : List (String × α)) : Finset String :=
  (d.map Prod.fst).toFinset

/-- The scan `for k, v in chess_perft.items(): if stockfish_perft[k] != v`,
returning the first key (in the tested dict's iteration order) whose values
disagree. -/
def findMismatch {α : Type} [DecidableEq α] (ref : List (String × α)) :
    List (String × α) → Option String
  | [] => none
  | (k, v) :: rest =>
    if dictLookup k ref ≠ some v then some k else findMismatch ref rest

/-- The value computed by one comparison, as an immutable tagged variant:
the `DebugResult` member returned together with the payload passed to
`load` (no payload for `OK`). -/
inductive Verdict where
  | OK
  | MISSING_MOVE (s : Finset String)
  | EXCESS_MOVE (s : Finset String)
  | DISAGREE_MOVE (s : Finset String)
  | COUNT_MISMATCH (m : String)
deriving DecidableEq

/-- The comparator logic of `_debug` (identical in both files): key-set
comparison first, with the size tie broken exactly as in the source, then
the count scan. -/
def compareCounts {α : Type} [DecidableEq α] (eng ref : List (String × α)) : Verdict :=
  let egnMoves := keysOf eng
  let sfMoves := keysOf ref
  if egnMoves ≠ sfMoves then
    if sfMoves.card < egnMoves.card then
      Verdict.EXCESS_MOVE (egnMoves \ sfMoves)
    else if egnMoves.card < sfMoves.card then
      Verdict.MISSING_MOVE (sfMoves \ egnMoves)
    else
      Verdict.DISAGREE_MOVE ((egnMoves \ sfMoves) ∪ (sfMoves \ egnMoves))
  else
    match findMismatch ref eng with
    | some k => Verdict.COUNT_MISMATCH k
    | none => Verdict.OK

/-- Whether a verdict is one of the three move-set divergences (the
terminal-failure cases of the driver). -/
def Verdict.isMoveSetVerdict : Verdict → Bool
  | Verdict.MISSING_MOVE _ => true
  | Verdict.EXCESS_MOVE _ => true
  | Verdict.DISAGREE_MOVE _ => true
  | _ => false

/-! ## The mutable-enum aspect of `DebugResult`

`DebugResult` is a Python `Enum`; its members are shared singletons and
`load` assigns `self.payload = payload` on the member before returning it.
The member and the payload are therefore separate: the member is the tag,
and the payload lives in mutable state shared by every comparison. -/

/-- The five members of the `DebugResult` enum (both files). -/
inductive DebugTag where
  | OK
  | MISSING_MOVE
  | EXCESS_MOVE
  | DISAGREE_MOVE
  | COUNT_MISMATCH
deriving DecidableEq

/-- A value held by the mutable `payload` attribute. -/
inductive Payload where
  | noPayload
  | moveSet (s : Finset String)
  | move (m : String)
deriving DecidableEq

/-- The enum member a verdict is reported through. -/
def Verdict.tag : Verdict → DebugTag
  | Verdict.OK => DebugTag.OK
  | Verdict.MISSING_MOVE _ => DebugTag.MISSING_MOVE
  | Verdict.EXCESS_MOVE _ => DebugTag.EXCESS_MOVE
  | Verdict.DISAGREE_MOVE _ => DebugTag.DISAGREE_MOVE
  | Verdict.COUNT_MISMATCH _ => DebugTag.COUNT_MISMATCH

/-- The payload passed to `load` for a verdict (`Payload.noPayload` for
`OK`, which is returned without calling `load`). -/
def Verdict.payloadOf : Verdict → Payload
  | Verdict.OK => Payload.noPayload
  | Verdict.MISSING_MOVE s => Payload.moveSet s
  | Verdict.EXCESS_MOVE s => Payload.moveSet s
  | Verdict.DISAGREE_MOVE s => Payload.moveSet s
  | Verdict.COUNT_MISMATCH m => Payload.move m

/-- The mutable `payload` attributes of the five shared enum members. -/
structure EnumState where
  payload : DebugTag → Payload

/-- `DebugResult.load` (lines 40-42 / 21-23): assign the payload attribute
on the shared member `t` and return that member. -/
def EnumState.load (s : EnumState) (t : DebugTag) (p : Payload) : EnumState :=
  ⟨fun t2 => if t2 = t then p else s.payload t2⟩

/-- State before any comparison ran (no member carries a payload yet). -/
def initEnumState : EnumState := ⟨fun _ => Payload.noPayload⟩

/-- One `_debug` comparison as executed: the returned enum member, and the
shared enum state after the call.  `OK` is returned without `load`; every
other result first mutates the shared member's payload. -/
def debugCmpStateful {α : Type} [DecidableEq α] (eng ref : List (String × α))
    (s : EnumState) : DebugTag × EnumState :=
  match compareCounts eng ref with
  | Verdict.OK => (DebugTag.OK, s)
  | v => (v.tag, s.load v.tag v.payloadOf)

/-! ## The Bisection Driver (`debug`, lines 45-60 / 26-43)

The two subprocess conversations are abstracted into an oracle giving, for
each (depth, move path) pair, the two dicts `_run` returns (tested engine
first).  The loop `for d in range(D, 0, -1)` becomes structural recursion
on the remaining depth. -/

/-- Engine replies for a query: `(chess_perft, stockfish_perft)` as functions
of the remaining depth and accumulated move path. -/
def Oracle (α : Type) : Type :=
  Nat → List String → List (String × α) × List (String × α)

/-- The terminal states of `debug`: the agreement print-and-return, the
verdict-plus-variation print-and-return, and falling off the loop
(`"Debug failed to find variation"`). -/
inductive Outcome where
  | agree
  | foundVerdict (v : Verdict) (path : List String)
  | exhausted
deriving DecidableEq

/-- The loop of `debug`: at remaining depth `d+1` compare the oracle's two
dicts; `OK` terminates with agreement, `COUNT_MISMATCH m` appends `m` and
continues at depth `d`, any move-set verdict terminates with the verdict and
the accumulated path; depth exhausted is the fall-through print. -/
def debugLoop {α : Type} [DecidableEq α] (oracle : Oracle α) :
    Nat → List String → Outcome
  | 0, _ => Outcome.exhausted
  | d + 1, moves =>
    match compareCounts (oracle (d + 1) moves).1 (oracle (d + 1) moves).2 with
    | Verdict.OK => Outcome.agree
    | Verdict.COUNT_MISMATCH m => debugLoop oracle d (moves ++ [m])
    | Verdict.MISSING_MOVE s => Outcome.foundVerdict (Verdict.MISSING_MOVE s) moves
    | Verdict.EXCESS_MOVE s => Outcome.foundVerdict (Verdict.EXCESS_MOVE s) moves
    | Verdict.DISAGREE_MOVE s => Outcome.foundVerdict (Verdict.DISAGREE_MOVE s) moves

/-- The successive `(d, moves)` arguments with which the loop body invokes
`_debug` (one entry per executed iteration). -/
def debugTrace {α : Type} [DecidableEq α] (oracle : Oracle α) :
    Nat → List String → List (Nat × List String)
  | 0, _ => []
  | d + 1, moves =>
    (d + 1, moves) ::
      (match compareCounts (oracle (d + 1) moves).1 (oracle (d + 1) moves).2 with
       | Verdict.COUNT_MISMATCH m => debugTrace oracle d (moves ++ [m])
       | _ => [])

/-! ## Helper lemmas -/

theorem splitChar_ne_nil (sep : Char) (l : List Char) : splitChar sep l ≠ [] := by
  cases l with
  | nil => simp [splitChar]
  | cons c cs =>
    simp only [splitChar]
    cases h : splitChar sep cs with
    | nil => simp
    | cons r rs => by_cases hc : c = sep <;> simp [hc]

theorem splitChar_length (sep : Char) :
    ∀ l : List Char, (splitChar sep l).length = countChar sep l + 1 := by
  intro l
  induction l with
  | nil => rfl
  | cons c cs ih =>
    cases h : splitChar sep cs with
    | nil => exact absurd h (splitChar_ne_nil sep cs)
    | cons r rs =>
      rw [h] at ih
      simp only [List.length_cons] at ih
      by_cases hc : c = sep <;> simp [splitChar, h, hc, countChar] <;> omega

theorem dictLookup_eq_none_of_not_mem {α : Type} {k : String} :
    ∀ {d : List (String × α)}, k ∉ d.map Prod.fst → dictLookup k d = none := by
  intro d
  induction d with
  | nil => intro _; rfl
  | cons p rest ih =>
    obtain ⟨k2, v⟩ := p
    intro h
    simp only [List.map_cons, List.mem_cons] at h
    push_neg at h
    have h1 : ¬ (k2 = k) := fun hh => h.1 hh.symm
    simp only [dictLookup, if_neg h1]
    exact ih h.2

theorem dictLookup_mem {α : Type} {k : String} :
    ∀ {d : List (String × α)}, k ∈ d.map Prod.fst →
      ∃ v, (k, v) ∈ d ∧ dictLookup k d = some v := by
  intro d
  induction d with
  | nil => intro h; simp at h
  | cons p rest ih =>
    obtain ⟨k2, v2⟩ := p
    intro h
    by_cases hk : k2 = k
    · subst hk
      exact ⟨v2, List.mem_cons_self _ _, by simp [dictLookup]⟩
    · have h2 : k ∈ rest.map Prod.fst := by
        simp only [List.map_cons, List.mem_cons] at h
        rcases h with h | h
        · exact absurd h.symm hk
        · exact h
      obtain ⟨v, hv1, hv2⟩ := ih h2
      exact ⟨v, List.mem_cons_of_mem _ hv1, by simp only [dictLookup, if_neg hk]; exact hv2⟩

theorem dictLookup_of_mem_nodup {α : Type} {k : String} {v : α} :
    ∀ {d : List (String × α)}, (k, v) ∈ d → (d.map Prod.fst).Nodup →
      dictLookup k d = some v := by
  intro d
  induction d with
  | nil => intro h _; simp at h
  | cons p rest ih =>
    obtain ⟨k2, v2⟩ := p
    intro hmem hnodup
    simp only [List.map_cons, List.nodup_cons] at hnodup
    rcases List.mem_cons.mp hmem with h | h
    · obtain ⟨hk, hv⟩ := Prod.mk.injEq .. ▸ h
      cases h
      simp [dictLookup]
    · have hk : ¬ (k2 = k) := by
        intro hh
        subst hh
        exact hnodup.1 (List.mem_map.mpr ⟨(k2, v), h, rfl⟩)
      simp only [dictLookup, if_neg hk]
      exact ih h hnodup.2

theorem findMismatch_eq_none {α : Type} [DecidableEq α] {ref : List (String × α)} :
    ∀ {eng : List (String × α)}, (∀ p ∈ eng, dictLookup p.1 ref = some p.2) →
      findMismatch ref eng = none := by
  intro eng
  induction eng with
  | nil => intro _; rfl
  | cons p rest ih =>
    obtain ⟨k, v⟩ := p
    intro h
    have h1 : dictLookup k ref = some v := h (k, v) (List.mem_cons_self _ _)
    simp only [findMismatch, h1, ne_eq, not_true_eq_false, if_false]
    exact ih fun p hp => h p (List.mem_cons_of_mem _ hp)

theorem findMismatch_eq_some {α : Type} [DecidableEq α] {ref : List (String × α)}
    {k : String} {v : α} :
    ∀ {eng : List (String × α)},
      (∀ p ∈ eng, p.1 ≠ k → dictLookup p.1 ref = some p.2) →
      (k, v) ∈ eng → dictLookup k ref ≠ some v →
      findMismatch ref eng = some k := by
  intro eng
  induction eng with
  | nil => intro _ hmem _; simp at hmem
  | cons p rest ih =>
    obtain ⟨k1, v1⟩ := p
    intro hAgree hmem hkv
    by_cases hmis : dictLookup k1 ref = some v1
    · have hne : (k, v) ≠ (k1, v1) := by
        intro hh
        obtain ⟨hh1, hh2⟩ := Prod.mk.injEq .. ▸ hh
        subst hh1; subst hh2
        exact hkv hmis
      have hmem2 : (k, v) ∈ rest := by
        rcases List.mem_cons.mp hmem with h | h
        · exact absurd h hne
        · exact h
      simp only [findMismatch, hmis, ne_eq, not_true_eq_false, if_false]
      exact ih (fun p hp => hAgree p (List.mem_cons_of_mem _ hp)) hmem2 hkv
    · have hk1 : k1 = k := by
        by_contra hne
        exact hmis (hAgree (k1, v1) (List.mem_cons_self _ _) hne)
      subst hk1
      simp [findMismatch, hmis]

theorem findMismatch_append {α : Type} [DecidableEq α] (ref : List (String × α))
    (k : String) (v : α) (post : List (String × α)) :
    ∀ pre : List (String × α), (∀ p ∈ pre, dictLookup p.1 ref = some p.2) →
      dictLookup k ref ≠ some v →
      findMismatch ref (pre ++ (k, v) :: post) = some k := by
  intro pre
  induction pre with
  | nil => intro _ hk; simp [findMismatch, hk]
  | cons p rest ih =>
    obtain ⟨k1, v1⟩ := p
    intro hpre hk
    have h1 : dictLookup k1 ref = some v1 := hpre (k1, v1) (List.mem_cons_self _ _)
    simp only [List.cons_append, findMismatch, h1, ne_eq, not_true_eq_false, if_false]
    exact ih (fun p hp => hpre p (List.mem_cons_of_mem _ hp)) hk

theorem parseLinesSingleErr (f : String → Bool) (l : String) (hf : f l = true) :
    parseLines f [l] [] = Except.error (PyError.valueError l) ↔
      countChar ':' l.toList ≠ 1 := by
  have h1 : parseLines f [l] [] =
      match splitColon l with
      | [move, nodeCount] => Except.ok (dictInsert [] move nodeCount)
      | _ => Except.error (PyError.valueError l) := by
    simp only [parseLines]
    rw [if_pos hf]
  have h2 : (splitColon l).length = countChar ':' l.toList + 1 := by
    simp only [splitColon, List.length_map]
    exact splitChar_length ':' l.toList
  rw [h1]
  rcases hsp : splitColon l with _ | ⟨a, _ | ⟨b, _ | ⟨e, t⟩⟩⟩ <;>
    rw [hsp] at h2 <;> simp at h2 ⊢ <;> omega

theorem compareCounts_keys_eq {α : Type} [DecidableEq α] {eng ref : List (String × α)}
    (h : keysOf eng = keysOf ref) :
    compareCounts eng ref =
      match findMismatch ref eng with
      | some k => Verdict.COUNT_MISMATCH k
      | none => Verdict.OK := by
  simp [compareCounts, h]

theorem debugTrace_length_le {α : Type} [DecidableEq α] (oracle : Oracle α) :
    ∀ (D : Nat) (P : List String), (debugTrace oracle D P).length ≤ D := by
  intro D
  induction D with
  | zero => intro P; simp [debugTrace]
  | succ d ih =>
    intro P
    cases hv : compareCounts (oracle (d + 1) P).1 (oracle (d + 1) P).2 with
    | OK => simp [debugTrace, hv]
    | MISSING_MOVE s => simp [debugTrace, hv]
    | EXCESS_MOVE s => simp [debugTrace, hv]
    | DISAGREE_MOVE s => simp [debugTrace, hv]
    | COUNT_MISMATCH m =>
      simp only [debugTrace, hv, List.length_cons]
      exact Nat.succ_le_succ (ih (P ++ [m]))

theorem rangeOne : List.range 1 = [0] := rfl

theorem debugTrace_depths {α : Type} [DecidableEq α] (oracle : Oracle α) :
    ∀ (D : Nat) (P : List String),
      (debugTrace oracle D P).map (fun e => (e.1, e.2.length)) =
        (List.range (debugTrace oracle D P).length).map
          (fun i => (D - i, P.length + i)) := by
  intro D
  induction D with
  | zero => intro P; simp [debugTrace]
  | succ d ih =>
    intro P
    cases hv : compareCounts (oracle (d + 1) P).1 (oracle (d + 1) P).2 with
    | OK => simp [debugTrace, hv, rangeOne]
    | MISSING_MOVE s => simp [debugTrace, hv, rangeOne]
    | EXCESS_MOVE s => simp [debugTrace, hv, rangeOne]
    | DISAGREE_MOVE s => simp [debugTrace, hv, rangeOne]
    | COUNT_MISMATCH m =>
      simp only [debugTrace, hv, List.map_cons, List.length_cons]
      rw [List.range_succ_eq_map]
      simp only [List.map_cons, Nat.sub_zero, Nat.add_zero, List.map_map]
      rw [ih (P ++ [m])]
      congr 1
      apply List.map_congr_left
      intro i _
      simp only [Function.comp_apply, Prod.mk.injEq, Nat.succ_sub_succ, List.length_append,
        List.length_cons, List.length_nil, Nat.succ_eq_add_one, true_and]
      omega

theorem debugLoop_found {α : Type} [DecidableEq α] (oracle : Oracle α) :
    ∀ (D : Nat) (P : List String) (v : Verdict) (Q : List String),
      debugLoop oracle D P = Outcome.foundVerdict v Q →
      v.isMoveSetVerdict = true ∧ Q.length < P.length + D := by
  intro D
  induction D with
  | zero => intro P v Q h; simp [debugLoop] at h
  | succ d ih =>
    intro P v Q h
    cases hv : compareCounts (oracle (d + 1) P).1 (oracle (d + 1) P).2 with
    | OK => simp [debugLoop, hv] at h
    | MISSING_MOVE s =>
      simp only [debugLoop, hv, Outcome.foundVerdict.injEq] at h
      obtain ⟨hv2, hq⟩ := h
      subst hv2; subst hq
      exact ⟨rfl, by omega⟩
    | EXCESS_MOVE s =>
      simp only [debugLoop, hv, Outcome.foundVerdict.injEq] at h
      obtain ⟨hv2, hq⟩ := h
      subst hv2; subst hq
      exact ⟨rfl, by omega⟩
    | DISAGREE_MOVE s =>
      simp only [debugLoop, hv, Outcome.foundVerdict.injEq] at h
      obtain ⟨hv2, hq⟩ := h
      subst hv2; subst hq
      exact ⟨rfl, by omega⟩
    | COUNT_MISMATCH m =>
      simp only [debugLoop, hv] at h
      have h2 := ih (P ++ [m]) v Q h
      refine ⟨h2.1, ?_⟩
      have := h2.2
      simp only [List.length_append, List.length_cons, List.length_nil] at this
      omega

/-! ## Claims -/

/-- Claim C1: the claim states that a response line of the shape
"square-pair prefix, colon, count" (e.g. `e2e4: 20`) is recorded by `_run`
with the move token as key and the integer count as value, and that any
other line contributes no entry.  The code diverges: the regex of
`perftdebug.py` (`^[a-h][1-8]{2}`) demands two rank digits directly after
the file letter, so `e2e4: 20` does not match and contributes no entry at
all; and in `perftdebugger.py`, where the line does match, the stored value
is the raw string `" 20"` (the piece after the colon, leading space
included), not the integer `20`, contradicting the annotated return type
`Dict[str, int]`.  This theorem evaluates both parsers at the failing
input. -/
theorem C1_parse_recording :
    matchMoveDebug "e2e4: 20" = false ∧
    parseResponseDebug ["e2e4: 20", "Nodes searched: 20"] = Except.ok [] ∧
    matchMoveDebugger "e2e4: 20" = true ∧
    parseResponseDebugger ["e2e4: 20", "Nodes searched: 20"] =
      Except.ok [("e2e4", " 20")] :=
  ⟨by decide, rfl, by decide, rfl⟩

/-- Claim C2: when the two key sets differ, the comparator returns
`EXCESS_MOVE` with `keys(tested) - keys(reference)` when the tested key set
is strictly larger, `MISSING_MOVE` with `keys(reference) - keys(tested)`
when the reference key set is strictly larger, and `DISAGREE_MOVE` with the
symmetric difference when the sizes are equal; for disjoint key sets the
symmetric difference equals the union. -/
theorem C2_keyset_verdicts {α : Type} [DecidableEq α] (eng ref : List (String × α))
    (h : keysOf eng ≠ keysOf ref) :
    ((keysOf ref).card < (keysOf eng).card →
      compareCounts eng ref = Verdict.EXCESS_MOVE (keysOf eng \ keysOf ref)) ∧
    ((keysOf eng).card < (keysOf ref).card →
      compareCounts eng ref = Verdict.MISSING_MOVE (keysOf ref \ keysOf eng)) ∧
    ((keysOf eng).card = (keysOf ref).card →
      compareCounts eng ref =
        Verdict.DISAGREE_MOVE ((keysOf eng \ keysOf ref) ∪ (keysOf ref \ keysOf eng)) ∧
      (Disjoint (keysOf eng) (keysOf ref) →
        (keysOf eng \ keysOf ref) ∪ (keysOf ref \ keysOf eng) =
          keysOf eng ∪ keysOf ref)) := by
  refine ⟨?_, ?_, ?_⟩
  · intro hcard
    simp [compareCounts, h, hcard]
  · intro hcard
    have h1 : ¬ (keysOf ref).card < (keysOf eng).card := by omega
    simp [compareCounts, h, hcard, h1]
  · intro hcard
    have h1 : ¬ (keysOf ref).card < (keysOf eng).card := by omega
    have h2 : ¬ (keysOf eng).card < (keysOf ref).card := by omega
    refine ⟨by simp [compareCounts, h, h1, h2], ?_⟩
    intro hd
    ext x
    simp only [Finset.mem_union, Finset.mem_sdiff]
    constructor
    · rintro (⟨hx, _⟩ | ⟨hx, _⟩)
      · exact Or.inl hx
      · exact Or.inr hx
    · rintro (hx | hx)
      · exact Or.inl ⟨hx, Finset.disjoint_left.mp hd hx⟩
      · exact Or.inr ⟨hx, Finset.disjoint_right.mp hd hx⟩

/-- Witness for C2 at a concrete pair of mappings (the tested engine has
the extra move `d2d4`). -/
theorem C2_keyset_verdicts_witness :
    compareCounts [("e2e4", "20"), ("d2d4", "20")] [("e2e4", "20")] =
      Verdict.EXCESS_MOVE
        (keysOf [("e2e4", "20"), ("d2d4", "20")] \ keysOf [("e2e4", "20")]) ∧
    keysOf [("e2e4", "20"), ("d2d4", "20")] \ keysOf [("e2e4", "20")] = {"d2d4"} :=
  ⟨(C2_keyset_verdicts _ _ (by decide)).1 (by decide), by decide⟩

/-- Claim C3: with identical key sets, the comparator returns
`COUNT_MISMATCH` naming the unique differing key whatever the iteration
order of the two mappings is (first conjunct), and in general it names the
first differing key in the tested mapping's iteration order, i.e. the scan
order over the shared key set (second conjunct). -/
theorem C3_count_mismatch {α : Type} [DecidableEq α] :
    (∀ (eng ref : List (String × α)), (eng.map Prod.fst).Nodup →
      keysOf eng = keysOf ref →
      ∀ k, dictLookup k eng ≠ dictLookup k ref →
      (∀ k2 ∈ keysOf eng, k2 ≠ k → dictLookup k2 eng = dictLookup k2 ref) →
      compareCounts eng ref = Verdict.COUNT_MISMATCH k) ∧
    (∀ (eng ref pre post : List (String × α)) (k : String) (v : α),
      keysOf eng = keysOf ref →
      eng = pre ++ (k, v) :: post →
      (∀ p ∈ pre, dictLookup p.1 ref = some p.2) →
      dictLookup k ref ≠ some v →
      compareCounts eng ref = Verdict.COUNT_MISMATCH k) := by
  constructor
  · intro eng ref hnodup hkeys k hk hall
    rw [compareCounts_keys_eq hkeys]
    have hmemk : k ∈ eng.map Prod.fst := by
      by_contra hmem
      have h1 : dictLookup k eng = none := dictLookup_eq_none_of_not_mem hmem
      have hmem2 : k ∉ ref.map Prod.fst := by
        intro hr
        apply hmem
        have h3 : k ∈ keysOf ref := List.mem_toFinset.mpr hr
        rw [← hkeys] at h3
        exact List.mem_toFinset.mp h3
      have h2 : dictLookup k ref = none := dictLookup_eq_none_of_not_mem hmem2
      exact hk (h1.trans h2.symm)
    obtain ⟨v, hvMem, hvLook⟩ := dictLookup_mem hmemk
    have hkv : dictLookup k ref ≠ some v := by
      rw [hvLook] at hk
      exact fun hh => hk hh.symm
    have hAgree : ∀ p ∈ eng, p.1 ≠ k → dictLookup p.1 ref = some p.2 := by
      intro p hp hpk
      have hlook : dictLookup p.1 eng = some p.2 := dictLookup_of_mem_nodup hp hnodup
      have hmem : p.1 ∈ keysOf eng :=
        List.mem_toFinset.mpr (List.mem_map.mpr ⟨p, hp, rfl⟩)
      rw [← hall p.1 hmem hpk]
      exact hlook
    rw [findMismatch_eq_some hAgree hvMem hkv]
  · intro eng ref pre post k v hkeys hsplit hpre hk
    rw [compareCounts_keys_eq hkeys, hsplit,
      findMismatch_append ref k v post pre hpre hk]

/-- Witness for C3: a unique differing value at `d2d4` (first conjunct of
the theorem), and a first-in-iteration-order mismatch at `a2a3` when both
values differ (second conjunct). -/
theorem C3_count_mismatch_witness :
    compareCounts [("e2e4", "1"), ("d2d4", "2")] [("e2e4", "1"), ("d2d4", "3")] =
      Verdict.COUNT_MISMATCH "d2d4" ∧
    compareCounts [("a2a3", "5"), ("b2b3", "6")] [("a2a3", "9"), ("b2b3", "7")] =
      Verdict.COUNT_MISMATCH "a2a3" :=
  ⟨C3_count_mismatch.1 _ _ (by decide) (by decide) "d2d4" (by decide) (by decide),
   C3_count_mismatch.2 _ _ [] [("b2b3", "6")] "a2a3" "5" (by decide) rfl
     (by decide) (by decide)⟩

/-- Claim C4 counterexample: in `perftdebugger.py` the two engines are not
queried "by the same position-setup request" — at the same root FEN, move
path and depth, the script written to the tested engine differs textually
from the script written to the reference engine (the `moves` keyword is
omitted for the tested engine). -/
theorem C4_queries_counterexample :
    (debugQueriesDebugger 1 STARTING_FEN ["e2e4"]).1.script ≠
      (debugQueriesDebugger 1 STARTING_FEN ["e2e4"]).2.script := by
  decide

/-- Claim C4 (amended): at every iteration both engines receive the same
root FEN, the same accumulated move path and the same remaining depth; in
`perftdebug.py` this is conveyed by the identical stdin script, while in
`perftdebugger.py` the two scripts encode the same position and depth but
the tested engine's position line omits the `moves` keyword. -/
theorem C4_identical_queries (ref eng fen : String) (d : Nat) (P : List String) :
    (debugQueriesDebug ref eng d fen P).1.script =
      (debugQueriesDebug ref eng d fen P).2.script ∧
    (debugQueriesDebug ref eng d fen P).1.path = eng ∧
    (debugQueriesDebug ref eng d fen P).2.path = ref ∧
    (debugQueriesDebugger d fen P).1.script =
      ["position fen " ++ fen ++ " " ++ String.intercalate " " P ++ "\n",
       "go perft " ++ toString d ++ "\n", "quit\n"] ∧
    (debugQueriesDebugger d fen P).2.script =
      ["position fen " ++ fen ++ " moves " ++ String.intercalate " " P ++ "\n",
       "go perft " ++ toString d ++ "\n", "quit\n"] := by
  refine ⟨rfl, rfl, rfl, ?_, ?_⟩
  · show runScriptDebugger "engine" (some fen) (some P) d = _
    simp [runScriptDebugger, positionCmdDebugger, movesRepr]
  · show runScriptDebugger "stockfish" (some fen) (some P) d = _
    simp [runScriptDebugger, positionCmdDebugger, movesRepr]

/-- Claim C5: for any oracle and any requested depth `D ≥ 1`, the driver
loop runs at least one and at most `D` iterations, the depth passed to
`_debug` decreases by exactly one per iteration while the path grows by
exactly one move, and the outcome is exactly one of: agreement, a move-set
verdict carried out of the loop with a path of length `< D`, or the
explicit exhaustion report. -/
theorem C5_driver_termination {α : Type} [DecidableEq α] (oracle : Oracle α)
    (D : Nat) (hD : 1 ≤ D) :
    (debugTrace oracle D []).length ≤ D ∧
    1 ≤ (debugTrace oracle D []).length ∧
    (debugTrace oracle D []).map (fun e => (e.1, e.2.length)) =
      (List.range (debugTrace oracle D []).length).map (fun i => (D - i, i)) ∧
    (debugLoop oracle D [] = Outcome.agree ∨
      (∃ v Q, debugLoop oracle D [] = Outcome.foundVerdict v Q ∧
        v.isMoveSetVerdict = true ∧ Q.length < D) ∨
      debugLoop oracle D [] = Outcome.exhausted) := by
  refine ⟨debugTrace_length_le oracle D [], ?_, ?_, ?_⟩
  · obtain ⟨d, rfl⟩ : ∃ d, D = d + 1 := ⟨D - 1, by omega⟩
    cases hv : compareCounts (oracle (d + 1) []).1 (oracle (d + 1) []).2 with
    | OK => simp [debugTrace, hv]
    | MISSING_MOVE s => simp [debugTrace, hv]
    | EXCESS_MOVE s => simp [debugTrace, hv]
    | DISAGREE_MOVE s => simp [debugTrace, hv]
    | COUNT_MISMATCH m => simp [debugTrace, hv]
  · have h := debugTrace_depths oracle D []
    simpa using h
  · cases hout : debugLoop oracle D [] with
    | agree => exact Or.inl rfl
    | foundVerdict v Q =>
      refine Or.inr (Or.inl ⟨v, Q, rfl, (debugLoop_found oracle D [] v Q hout).1, ?_⟩)
      have h2 := (debugLoop_found oracle D [] v Q hout).2
      simpa using h2
    | exhausted => exact Or.inr (Or.inr rfl)

/-- Witness for C5 with a concrete oracle on which both engines agree at
once, at requested depth `1`. -/
theorem C5_driver_termination_witness :
    (debugTrace (fun _ _ => ([("e2e4", "20")], [("e2e4", "20")])) 1 []).length ≤ 1 ∧
    1 ≤ (debugTrace (fun _ _ => ([("e2e4", "20")], [("e2e4", "20")])) 1 []).length ∧
    (debugTrace (fun _ _ => ([("e2e4", "20")], [("e2e4", "20")])) 1 []).map
        (fun e => (e.1, e.2.length)) =
      (List.range
        (debugTrace (fun _ _ => ([("e2e4", "20")], [("e2e4", "20")])) 1 []).length).map
        (fun i => (1 - i, i)) ∧
    (debugLoop (fun _ _ => ([("e2e4", "20")], [("e2e4", "20")])) 1 [] = Outcome.agree ∨
      (∃ v Q, debugLoop (fun _ _ => ([("e2e4", "20")], [("e2e4", "20")])) 1 [] =
          Outcome.foundVerdict v Q ∧ v.isMoveSetVerdict = true ∧ Q.length < 1) ∨
      debugLoop (fun _ _ => ([("e2e4", "20")], [("e2e4", "20")])) 1 [] =
        Outcome.exhausted) :=
  C5_driver_termination (fun _ _ => ([("e2e4", "20")], [("e2e4", "20")])) 1 (le_refl 1)

/-- Claim C6 counterexample: the comparison result is not immutable — the
payload of a verdict obtained from one comparison is altered by a later
comparison that loads the same shared enum member.  After comparing
`{d2d4}` against `{}` the shared `EXCESS_MOVE` member carries payload
`{d2d4}`; a second comparison of `{h7h5}` against `{}` overwrites it with
`{h7h5}`. -/
theorem C6_payload_overwritten :
    ((debugCmpStateful [("d2d4", "1")] ([] : List (String × String))
        initEnumState).2).payload DebugTag.EXCESS_MOVE = Payload.moveSet {"d2d4"} ∧
    ((debugCmpStateful [("h7h5", "1")] ([] : List (String × String))
        (debugCmpStateful [("d2d4", "1")] ([] : List (String × String))
          initEnumState).2).2).payload DebugTag.EXCESS_MOVE =
      Payload.moveSet {"h7h5"} ∧
    ((debugCmpStateful [("h7h5", "1")] ([] : List (String × String))
        (debugCmpStateful [("d2d4", "1")] ([] : List (String × String))
          initEnumState).2).2).payload DebugTag.EXCESS_MOVE ≠
      ((debugCmpStateful [("d2d4", "1")] ([] : List (String × String))
        initEnumState).2).payload DebugTag.EXCESS_MOVE := by
  refine ⟨by decide, by decide, by decide⟩

/-- Claim C6 (amended): the returned enum member is a pure total function
of the two input mappings — it does not depend on the shared enum state —
but each non-`OK` comparison writes its payload into that shared state,
where it stays until the next `load` of the same member. -/
theorem C6_tag_pure {α : Type} [DecidableEq α] (eng ref : List (String × α))
    (s1 s2 : EnumState) :
    (debugCmpStateful eng ref s1).1 = (debugCmpStateful eng ref s2).1 ∧
    (debugCmpStateful eng ref s1).1 = (compareCounts eng ref).tag ∧
    (compareCounts eng ref ≠ Verdict.OK →
      ((debugCmpStateful eng ref s1).2).payload (compareCounts eng ref).tag =
        (compareCounts eng ref).payloadOf) := by
  cases hv : compareCounts eng ref <;>
    simp [debugCmpStateful, hv, EnumState.load, Verdict.tag, Verdict.payloadOf]

/-- Witness for C6 at a concrete comparison with an `EXCESS_MOVE` verdict,
applied at two different incoming enum states. -/
theorem C6_tag_pure_witness :
    (debugCmpStateful [("d2d4", "1")] ([] : List (String × String)) initEnumState).1 =
      (debugCmpStateful [("d2d4", "1")] ([] : List (String × String))
        (EnumState.load initEnumState DebugTag.OK Payload.noPayload)).1 ∧
    ((debugCmpStateful [("d2d4", "1")] ([] : List (String × String))
        initEnumState).2).payload
        (compareCounts [("d2d4", "1")] ([] : List (String × String))).tag =
      (compareCounts [("d2d4", "1")] ([] : List (String × String))).payloadOf := by
  have h := C6_tag_pure [("d2d4", "1")] ([] : List (String × String)) initEnumState
    (EnumState.load initEnumState DebugTag.OK Payload.noPayload)
  exact ⟨h.1, h.2.2 (by decide)⟩

/-- Claim C7 counterexample: a move record whose count token is not a valid
integer does not fail — `_run` returns a mapping containing the record with
the raw string as value (and in `perftdebug.py` the line is silently
dropped by the regex); no `ProtocolParseError` exists anywhere in the
code. -/
theorem C7_no_error_on_bad_int :
    parseResponseDebugger ["e2e4: abc"] = Except.ok [("e2e4", " abc")] ∧
    parseResponseDebug ["e2e4: abc"] = Except.ok [] :=
  ⟨rfl, rfl⟩

/-- Claim C7 (amended): the parse loop performs no integer validation at
all — any matching line with exactly one colon is recorded with the raw
string suffix as its value, integer or not, and no error is raised. -/
theorem C7_no_validation (m c : String)
    (hm : matchMoveDebugger (m ++ ":" ++ c) = true)
    (hs : splitColon (m ++ ":" ++ c) = [m, c]) :
    parseResponseDebugger [m ++ ":" ++ c] = Except.ok [(m, c)] := by
  simp [parseResponseDebugger, parseLines, hm, hs, dictInsert]

/-- Witness for C7 at the non-integer count token `" zzz"`. -/
theorem C7_no_validation_witness :
    parseResponseDebugger ["e2e4" ++ ":" ++ " zzz"] = Except.ok [("e2e4", " zzz")] :=
  C7_no_validation "e2e4" " zzz" (by decide) (by decide)

/-- Claim C8 counterexample: the position-setup request does not have the
claimed form `position fen <FEN> moves <moves>` for both engines — in
`perftdebugger.py` the tested engine's request omits the `moves` keyword
and so differs from the reference engine's request. -/
theorem C8_request_counterexample :
    positionCmdDebugger "engine" STARTING_FEN (some ["e2e4"]) =
      "position fen " ++ STARTING_FEN ++ " e2e4\n" ∧
    positionCmdDebugger "engine" STARTING_FEN (some ["e2e4"]) ≠
      "position fen " ++ STARTING_FEN ++ " moves e2e4\n" ∧
    positionCmdDebugger "engine" STARTING_FEN (some ["e2e4"]) ≠
      positionCmdDebugger "stockfish" STARTING_FEN (some ["e2e4"]) := by
  refine ⟨by decide, by decide, by decide⟩

/-- Claim C8 (amended): in `perftdebug.py` every invocation sends
`position fen <FEN> moves <space-joined path>` to both engines, with an
empty (not malformed) moves clause for the empty path; in
`perftdebugger.py` only the reference engine receives that form, while the
tested engine receives `position fen <FEN> <space-joined path>` without
the `moves` keyword. -/
theorem C8_request_form (fen : String) (ms : List String) (d : Nat) :
    positionCmdDebug fen (some ms) =
      "position fen " ++ fen ++ " moves " ++ String.intercalate " " ms ++ "\n" ∧
    positionCmdDebug fen (some []) = "position fen " ++ fen ++ " moves " ++ "" ++ "\n" ∧
    runScriptDebug fen (some ms) d =
      [positionCmdDebug fen (some ms), "go perft " ++ toString d ++ "\n", "quit\n"] ∧
    positionCmdDebugger "stockfish" fen (some ms) = positionCmdDebug fen (some ms) ∧
    positionCmdDebugger "engine" fen (some ms) =
      "position fen " ++ fen ++ " " ++ String.intercalate " " ms ++ "\n" := by
  refine ⟨rfl, rfl, rfl, ?_, ?_⟩
  · simp [positionCmdDebugger, positionCmdDebug]
  · simp [positionCmdDebugger, movesRepr]

/-- Claim C9: comparing any well-formed mapping (a Python dict has no
duplicate keys) with itself yields the `OK` (agree) verdict. -/
theorem C9_compare_self {α : Type} [DecidableEq α] (d : List (String × α))
    (h : (d.map Prod.fst).Nodup) : compareCounts d d = Verdict.OK := by
  rw [compareCounts_keys_eq rfl]
  rw [findMismatch_eq_none fun p hp => dictLookup_of_mem_nodup hp h]

/-- Witness for C9 at a concrete mapping. -/
theorem C9_compare_self_witness :
    compareCounts [("e2e4", "20"), ("d2d4", "20")] [("e2e4", "20"), ("d2d4", "20")] =
      Verdict.OK :=
  C9_compare_self [("e2e4", "20"), ("d2d4", "20")] (by decide)

/-- Claim C10: on a line that matches the move-prefix pattern, the parse
loop raises the unpacking `ValueError` precisely when the line does not
contain exactly one colon character (so the parser is total only over
matching lines with exactly one colon); this holds for the patterns of
both files. -/
theorem C10_parse_crash (l : String) :
    (matchMoveDebugger l = true →
      (parseResponseDebugger [l] = Except.error (PyError.valueError l) ↔
        countChar ':' l.toList ≠ 1)) ∧
    (matchMoveDebug l = true →
      (parseResponseDebug [l] = Except.error (PyError.valueError l) ↔
        countChar ':' l.toList ≠ 1)) :=
  ⟨fun h => parseLinesSingleErr matchMoveDebugger l h,
   fun h => parseLinesSingleErr matchMoveDebug l h⟩

/-- Witness for C10: `e24` matches both patterns, contains no colon, and
crashes both parse loops. -/
theorem C10_parse_crash_witness :
    parseResponseDebugger ["e24"] = Except.error (PyError.valueError "e24") ∧
    parseResponseDebug ["e24"] = Except.error (PyError.valueError "e24") :=
  ⟨((C10_parse_crash "e24").1 (by decide)).mpr (by decide),
   ((C10_parse_crash "e24").2 (by decide)).mpr (by decide)⟩

end RPerft
